import Mathlib

/-!
Verification development for the EthioMed data-warehouse cleaning pipeline
(`scripts/data_cleaner.py`, class `DataCleaner`).

The pipeline is embedded shallowly: a pandas `DataFrame` becomes a `Table`
(a column-name schema plus an ordered list of `Row`s), cell values become
the `Value` type (`vStr` for strings, `vDate` for parsed datetimes, `vNA`
for NaN/NaT), Python exceptions become `Except String`, and the filesystem
is modelled explicitly (the CSV file as `Option Table`, the image directory
as a list of file names).  Each definition is translated from the
corresponding Python function; source line references are given in the
doc comments.
-/

namespace DataCleaner

/-- A cell value of the table: a string, a parsed datetime (from
`pd.to_datetime`, encoded as a `Nat`), or the missing marker NaN/NaT. -/
inductive Value where
  | vStr : String → Value
  | vDate : Nat → Value
  | vNA : Value
deriving DecidableEq

/-- Whitespace characters matched by Python's `\s` (ASCII part; the claims
and the data exercise only these). -/
def isSpaceChar (c : Char) : Bool :=
  c = ' ' || c = '\t' || c = '\n' || c = '\r' || c = Char.ofNat 11 || c = Char.ofNat 12

/-- Emoji / pictographic characters removed by `emoji.replace_emoji`
(data_cleaner.py line 148).  Modelled as the Unicode pictograph blocks
exercised by this dataset (Misc Symbols, Dingbats, the Supplemental
Symbols and Pictographs planes, and the variation selector U+FE0F). -/
def isEmojiChar (c : Char) : Bool :=
  (0x1F000 ≤ c.toNat && c.toNat ≤ 0x1FAFF) ||
  (0x2600 ≤ c.toNat && c.toNat ≤ 0x27BF) ||
  (0x2B00 ≤ c.toNat && c.toNat ≤ 0x2BFF) ||
  c.toNat = 0xFE0F

/-- The character class actually compiled from the source pattern
`[^a-zA-Z0-9\s.,!?;:()[]@&]+` (data_cleaner.py line 33).  In Python the
first unescaped `]` closes the class, so the negated class is
`[^a-zA-Z0-9\s.,!?;:()[` `]` : it matches any character that is NOT an
ASCII letter, digit, whitespace, or one of `. , ! ? ; : ( ) [`.
This function is true on the characters the class does NOT match. -/
def isAllowedClassChar (c : Char) : Bool :=
  c.isAlpha || c.isDigit || isSpaceChar c ||
  c ∈ ['.', ',', '!', '?', ';', ':', '(', ')', '[']

/-- One pass of `re.sub(self.allowed_characters, '', text)` with the
compiled pattern of line 33.  Because the character class closes at the
first `]`, the remaining pattern text `@&]+` is literal: a match is one
character outside the class followed by `@`, `&`, and one or more `]`.
The scan is left-to-right and non-overlapping, and `]+` is greedy; the
`Bool` flag records that we are still consuming the greedy `]+` run of a
match. -/
def pySubFuel : Nat → Bool → List Char → List Char
  | 0, _, cs => cs
  | _ + 1, _, [] => []
  | n + 1, skip, c :: rest =>
    if skip && c = ']' then pySubFuel n true rest
    else if isAllowedClassChar c then c :: pySubFuel n false rest
    else
      match rest with
      | '@' :: '&' :: ']' :: rest2 => pySubFuel n true rest2
      | _ => c :: pySubFuel n false rest

/-- `re.sub` of the line-33 pattern over a whole character list; the fuel
is the list length, which the scan never exceeds. -/
def pySub (cs : List Char) : List Char := pySubFuel cs.length false cs

/-- `re.sub(r'\s+', ' ', text)` (data_cleaner.py line 152): every maximal
run of whitespace becomes a single space. -/
def collapseWsFuel : Nat → List Char → List Char
  | 0, cs => cs
  | _ + 1, [] => []
  | n + 1, c :: rest =>
    if isSpaceChar c then
      match rest with
      | [] => [' ']
      | c2 :: rest2 =>
        if isSpaceChar c2 then collapseWsFuel n (c2 :: rest2)
        else ' ' :: collapseWsFuel n (c2 :: rest2)
    else c :: collapseWsFuel n rest

/-- Whitespace-run collapsing over a whole character list. -/
def collapseWs (cs : List Char) : List Char := collapseWsFuel cs.length cs

/-- Python `str.strip()` : remove leading and trailing whitespace. -/
def stripChars (cs : List Char) : List Char :=
  ((cs.dropWhile isSpaceChar).reverse.dropWhile isSpaceChar).reverse

/-- `DataCleaner.clean_message_content` (data_cleaner.py lines 137-154):
remove emojis, apply the (malformed) allow-list substitution, collapse
whitespace runs to single spaces, and strip. -/
def clean_message_content (s : String) : String :=
  ⟨stripChars (collapseWs (pySub ((s.data).filter (fun c => !isEmojiChar c))))⟩

/-- The message standardization of `standardize_formats` line 128:
`apply(clean_message_content).str.lower().str.strip()`.
`str.lower` is modelled on ASCII letters (the data is ASCII after
cleaning for the claims considered). -/
def standardizeMessage (s : String) : String :=
  ⟨stripChars ((clean_message_content s).data.map Char.toLower)⟩

/-- Python `str.title()` on the channel-name column (line 132): the first
cased character of each run of letters is uppercased, the rest lowercased;
the flag records whether the previous character was a letter. -/
def titleAux : Bool → List Char → List Char
  | _, [] => []
  | prev, c :: rest =>
    if c.isAlpha then (if prev then c.toLower else c.toUpper) :: titleAux true rest
    else c :: titleAux false rest

/-- The channel-name standardization of `standardize_formats` line 132:
`str.replace(r'[^a-zA-Z0-9\s]', '', regex=True).str.strip().str.title()`. -/
def cleanChannelName (s : String) : String :=
  ⟨titleAux false (stripChars ((s.data).filter
      (fun c => c.isAlpha || c.isDigit || isSpaceChar c)))⟩

/-- ASCII digit test. -/
def isDigitChar (c : Char) : Bool := '0' ≤ c && c ≤ '9'

/-- Shape test for the timestamp strings `pd.to_datetime` receives in this
pipeline: `YYYY-MM-DD` or `YYYY-MM-DD HH:MM:SS`.  Anything else (for
example `not-a-date`) is unparseable and coerced to NaT. -/
def dateShape : List Char → Bool
  | [a, b, c, d, '-', e, f, '-', g, h] =>
      [a, b, c, d, e, f, g, h].all isDigitChar
  | [a, b, c, d, '-', e, f, '-', g, h, ' ', i, j, ':', k, l, ':', m, n] =>
      [a, b, c, d, e, f, g, h, i, j, k, l, m, n].all isDigitChar
  | _ => false

/-- `pd.to_datetime(..., errors='coerce')` on one string cell
(data_cleaner.py line 124), modelled for the timestamp formats this
pipeline produces: a well-shaped date string parses to its digit reading,
anything else coerces to `none` (NaT). -/
def parseDate (s : String) : Option Nat :=
  if dateShape s.data then
    some ((s.data.filter isDigitChar).foldl (fun a c => a * 10 + (c.toNat - 48)) 0)
  else none

/-- `pd.to_datetime(..., errors='coerce')` on one cell: strings are
parsed (unparseable ones become NaT), NaT stays NaT, and already-parsed
datetimes pass through. -/
def toDatetime (v : Value) : Value :=
  match v with
  | .vStr s =>
    match parseDate s with
    | some n => .vDate n
    | none => .vNA
  | .vNA => .vNA
  | .vDate n => .vDate n

/-- One record of the Telegram CSV.  The seven fields correspond
positionally to the conventional columns `ID`, `channel_id`,
`Channel Title`, `Channel Username`, `Message`, `Date`, `Media Path`;
the names currently borne by the columns are tracked in `Table.schema`
(they change when `save_cleaned_data` renames in place). -/
structure Row where
  id : Value
  channel_id : Value
  channel_title : Value
  channel_username : Value
  message : Value
  date : Value
  media_path : Value
deriving DecidableEq

/-- A pandas DataFrame: the current column names plus the ordered rows. -/
structure Table where
  schema : List String
  rows : List Row
deriving DecidableEq

/-- The conventional column names of the input CSV (the class constants
of data_cleaner.py lines 20-26), in the fixed field order of `Row`. -/
def origSchema : List String :=
  ["ID", "channel_id", "Channel Title", "Channel Username", "Message", "Date", "Media Path"]

/-- `pd.DataFrame()` : the empty table returned on load failure. -/
def emptyTable : Table := ⟨[], []⟩

/-- `DataCleaner.load_data` (lines 35-54).  The filesystem is modelled as
`Option Table`: `none` means the file is missing or unparseable, in which
case the caught exception yields the empty DataFrame. -/
def load_data (file : Option Table) : Table := file.getD emptyTable

/-- The rows kept by `drop_duplicates(subset='ID', keep='first')`
(line 68): a row survives iff its identifier has not been seen before;
`seen` accumulates the identifiers already encountered. -/
def keptRows (seen : List Value) : List Row → List Row
  | [] => []
  | r :: rs =>
    if r.id ∈ seen then keptRows seen rs
    else r :: keptRows (r.id :: seen) rs

/-- The rows selected by `data.duplicated(subset='ID', keep='first')`
(line 67): the removed later occurrences, in order. -/
def dupRows (seen : List Value) : List Row → List Row
  | [] => []
  | r :: rs =>
    if r.id ∈ seen then r :: dupRows seen rs
    else dupRows (r.id :: seen) rs

/-- Python `str(value)` as used by the f-string of line 84. -/
def valueStr : Value → String
  | .vStr s => s
  | .vDate n => toString n
  | .vNA => "nan"

/-- The side-file name `f"{channel_username}_{message_id}.jpg"`
(line 84) computed for a row. -/
def imageName (r : Row) : String :=
  valueStr r.channel_username ++ "_" ++ valueStr r.id ++ ".jpg"

/-- `DataCleaner._remove_duplicate_images` (lines 73-92): for each
duplicate row, delete its side-file if present.  The directory is a list
of file names; the result is the list of deleted files and the remaining
directory. -/
def removeDupImages : List Row → List String → List String × List String
  | [], dir => ([], dir)
  | r :: rs, dir =>
    if imageName r ∈ dir then
      let pr := removeDupImages rs (dir.erase (imageName r))
      (imageName r :: pr.1, pr.2)
    else removeDupImages rs dir

/-- `DataCleaner.remove_duplicates` (lines 56-71).  `duplicated(subset='ID')`
raises `KeyError` when the column `ID` is absent; the image loop reads
`row['Channel Username']`, which raises when that column is absent and
there is at least one duplicate row. -/
def remove_duplicates (t : Table) (dir : List String) :
    Except String (Table × List String) :=
  if "ID" ∈ t.schema then
    if (dupRows [] t.rows).isEmpty ∨ "Channel Username" ∈ t.schema then
      .ok (⟨t.schema, keptRows [] t.rows⟩, (removeDupImages (dupRows [] t.rows) dir).1)
    else .error "KeyError: Channel Username"
  else .error "KeyError: ID"

/-- `DataCleaner.handle_missing_values` (lines 94-110): `fillna` with a
per-column dict; keys whose column is absent are ignored. -/
def handle_missing_values (t : Table) : Table :=
  ⟨t.schema, t.rows.map (fun r =>
    { r with
      channel_username :=
        if "Channel Username" ∈ t.schema ∧ r.channel_username = .vNA then .vStr "Unknown"
        else r.channel_username,
      message :=
        if "Message" ∈ t.schema ∧ r.message = .vNA then .vStr "N/A"
        else r.message,
      date :=
        if "Date" ∈ t.schema ∧ r.date = .vNA then .vStr "1970-01-01 00:00:00"
        else r.date })⟩

/-- `apply(self.clean_message_content).str.lower().str.strip()` on one
Message cell (line 128): on a non-string cell `clean_message_content`
raises `TypeError` (its regex operations require `str`). -/
def stdMsgCell : Value → Except String Value
  | .vStr s => .ok (.vStr (standardizeMessage s))
  | _ => .error "TypeError"

/-- The channel-name standardization on one cell (line 132); the pandas
`.str` accessor yields NaN on non-string cells. -/
def stdUserCell : Value → Value
  | .vStr s => .vStr (cleanChannelName s)
  | _ => .vNA

/-- `standardize_formats` applied to one row: each of the three column
transformations runs only when its column is present (lines 123, 127, 131). -/
def stdRow (sch : List String) (r : Row) : Except String Row :=
  match (if "Message" ∈ sch then stdMsgCell r.message else .ok r.message) with
  | .error e => .error e
  | .ok msg =>
    .ok { r with
      date := if "Date" ∈ sch then toDatetime r.date else r.date,
      message := msg,
      channel_username :=
        if "Channel Username" ∈ sch then stdUserCell r.channel_username
        else r.channel_username }

/-- Row-wise traversal of `standardize_formats`: the first failing cell
aborts the stage (the exception propagates out of the pandas `apply`). -/
def mapRowsStd (sch : List String) : List Row → Except String (List Row)
  | [] => .ok []
  | r :: rs =>
    match stdRow sch r with
    | .error e => .error e
    | .ok r' =>
      match mapRowsStd sch rs with
      | .error e => .error e
      | .ok rs' => .ok (r' :: rs')

/-- `DataCleaner.standardize_formats` (lines 112-135). -/
def standardize_formats (t : Table) : Except String Table :=
  match mapRowsStd t.schema t.rows with
  | .error e => .error e
  | .ok rows' => .ok ⟨t.schema, rows'⟩

/-- The Message-length mask `data[self.MESSAGE].str.len() <= 1000`
(line 171): NaN and non-string cells give a NaN length, which compares
false. -/
def msgLenOk : Value → Bool
  | .vStr s => s.length ≤ 1000
  | _ => false

/-- The channel-name mask `data[self.CHANNEL_USERNAME].str.len() > 0`
(line 174). -/
def userLenOk : Value → Bool
  | .vStr s => 0 < s.length
  | _ => false

/-- `DataCleaner.validate_data` (lines 156-177): drop rows whose `Date`
is NaT, whose `Message` is longer than 1000 characters (only when the
column exists), and whose `Channel Username` is empty.  `dropna(subset=
['Date'])` and the unguarded `data[self.CHANNEL_USERNAME]` raise
`KeyError` when their column is absent. -/
def validate_data (t : Table) : Except String Table :=
  if "Date" ∈ t.schema then
    if "Channel Username" ∈ t.schema then
      .ok ⟨t.schema,
        (((t.rows.filter (fun r => decide (r.date ≠ .vNA))).filter
            (fun r => if "Message" ∈ t.schema then msgLenOk r.message else true)).filter
          (fun r => userLenOk r.channel_username))⟩
    else .error "KeyError: Channel Username"
  else .error "KeyError: Date"

/-- The column rename of `save_cleaned_data` (lines 188-199): names in
the mapping are replaced, others are kept (`DataFrame.rename` ignores
absent keys). -/
def renameName (n : String) : String :=
  if n = "channel_id" then "channel_id"
  else if n = "Channel Username" then "channel_username"
  else if n = "Channel Title" then "channel_title"
  else if n = "ID" then "message_id"
  else if n = "Message" then "Message"
  else if n = "Date" then "date"
  else if n = "Media Path" then "media_path"
  else n

/-- `file_path.replace('.csv', '_cleaned.csv')` (line 202), scanning
left to right with fuel; a position starting the literal `.csv` is
replaced by `_cleaned.csv` and the scan resumes after it. -/
def replCsvFuel : Nat → List Char → List Char
  | 0, cs => cs
  | _ + 1, [] => []
  | n + 1, c :: rest =>
    if (c :: rest).take 4 = ['.', 'c', 's', 'v'] then
      ("_cleaned.csv").data ++ replCsvFuel n (rest.drop 3)
    else c :: replCsvFuel n rest

/-- Python `str.replace('.csv', '_cleaned.csv')` over a whole string. -/
def replaceCsv (s : String) : String := ⟨replCsvFuel s.data.length s.data⟩

/-- Whether the character list contains the substring `.csv`. -/
def hasCsv : List Char → Bool
  | [] => false
  | c :: rest => decide ((c :: rest).take 4 = ['.', 'c', 's', 'v']) || hasCsv rest

/-- `DataCleaner.save_cleaned_data` (lines 179-204): rename the columns
in place, then write the (renamed) table at the derived path.  Returns
the mutated table together with the written (path, content) pair. -/
def save_cleaned_data (t : Table) (p : String) : Table × (String × Table) :=
  (⟨t.schema.map renameName, t.rows⟩, (replaceCsv p, ⟨t.schema.map renameName, t.rows⟩))

/-- The observable outcome of one `clean_telegram_data` run: the returned
table, the side-files deleted from the image directory, and the output
file written (path and content), if any. -/
structure RunOut where
  result : Table
  deleted : List String
  written : Option (String × Table)
deriving DecidableEq

/-- The body of the `try` block of `clean_telegram_data` (lines 217-234):
load, short-circuit on an empty table, then the four stages and the save. -/
def pipelineExc (file : Option Table) (dir : List String) (path : String) :
    Except String RunOut :=
  if (load_data file).rows.isEmpty then .ok ⟨load_data file, [], none⟩
  else
    match remove_duplicates (load_data file) dir with
    | .error e => .error e
    | .ok (d1, del) =>
      match standardize_formats (handle_missing_values d1) with
      | .error e => .error e
      | .ok d3 =>
        match validate_data d3 with
        | .error e => .error e
        | .ok d4 =>
          .ok ⟨(save_cleaned_data d4 path).1, del, some (save_cleaned_data d4 path).2⟩

/-- `DataCleaner.clean_telegram_data` (lines 206-238): any exception from
the body is caught and logged, and the empty DataFrame is returned. -/
def clean_telegram_data (file : Option Table) (dir : List String) (path : String) :
    RunOut :=
  match pipelineExc file dir path with
  | .ok r => r
  | .error _ => ⟨emptyTable, [], none⟩

/-- The specification-side description of first-occurrence deduplication
(spec section 4.2: "Table with only first-occurrence rows per identifier
(stable by original order)"): keep the head and delete every later row
bearing the same identifier. -/
def firstOccurSpec : List Row → List Row
  | [] => []
  | r :: rs => r :: firstOccurSpec (rs.filter (fun x => decide (x.id ≠ r.id)))
termination_by l => l.length
decreasing_by
  simp only [List.length_cons]
  exact Nat.lt_succ_of_le (List.length_filter_le _ _)

/-- The allow-list of spec section 4.4: ASCII letters, digits, the listed
punctuation, and the (single-space) whitespace. -/
def specAllowedChar (c : Char) : Bool :=
  c.isAlpha || c.isDigit || c = ' ' ||
  c ∈ ['.', ',', '!', '?', ';', ':', '(', ')', '[', ']', '@', '&']

/-- A well-formed single-row input table used to exercise the pipeline on
concrete data. -/
def rowA : Row :=
  ⟨.vStr "1", .vStr "100", .vStr "Title", .vStr "Chan", .vStr "hello",
   .vStr "2024-01-02 03:04:05", .vStr "m.jpg"⟩

/-- A one-row table over the conventional schema. -/
def t0 : Table := ⟨origSchema, [rowA]⟩

/-- The table the first pipeline pass over `t0` writes (and returns):
columns renamed, date parsed, message and channel name standardized. -/
def t1c : Table :=
  ⟨["message_id", "channel_id", "channel_title", "channel_username",
    "Message", "date", "media_path"],
   [⟨.vStr "1", .vStr "100", .vStr "Title", .vStr "Chan", .vStr "hello",
     .vDate 20240102030405, .vStr "m.jpg"⟩]⟩

/-- A row whose identifier is `"5"` and channel username `"ChannelA"`,
duplicated in `t4` to exercise the duplicate-image deletion. -/
def rowD : Row :=
  ⟨.vStr "5", .vStr "100", .vStr "T", .vStr "ChannelA", .vStr "x",
   .vStr "2024-01-02 03:04:05", .vStr "m"⟩

/-- A table containing the identifier `"5"` twice. -/
def t4 : Table := ⟨origSchema, [rowD, rowD]⟩

/-! ## Helper lemmas -/

/-- A non-empty string is exactly a string of positive length. -/
theorem string_ne_empty_iff_pos (s : String) : s ≠ "" ↔ 0 < s.length := by
  rw [String.length, List.length_pos]
  constructor
  · intro h hc
    exact h (by cases s; simp_all)
  · intro h hc
    subst hc
    simp at h

/-- Inversion of one successful `pipelineExc` run: either the loader
short-circuited on an empty table, or every stage succeeded and the
result is the saved (renamed) table together with the deletions and the
written file. -/
theorem pipelineExc_ok_cases {file : Option Table} {dir : List String} {path : String}
    {r : RunOut} (h : pipelineExc file dir path = .ok r) :
    ((load_data file).rows = [] ∧ r = ⟨load_data file, [], none⟩) ∨
    (∃ d1 del d3 d4,
      remove_duplicates (load_data file) dir = .ok (d1, del) ∧
      standardize_formats (handle_missing_values d1) = .ok d3 ∧
      validate_data d3 = .ok d4 ∧
      r = ⟨(save_cleaned_data d4 path).1, del, some (save_cleaned_data d4 path).2⟩) := by
  unfold pipelineExc at h
  split at h
  next he =>
    left
    injection h with h'
    exact ⟨List.isEmpty_iff.mp he, h'.symm⟩
  next he =>
    right
    split at h
    next => cases h
    next d1 del h1 =>
      split at h
      next => cases h
      next d3 h2 =>
        split at h
        next => cases h
        next d4 h3 =>
          injection h with h'
          exact ⟨d1, del, d3, d4, h1, h2, h3, h'.symm⟩

/-- Inversion of a successful deduplication: the schema is kept, the
retained rows are the first occurrences, and the deleted files are those
computed from the duplicate rows. -/
theorem remove_duplicates_ok {t : Table} {dir : List String} {t' : Table}
    {del : List String} (h : remove_duplicates t dir = .ok (t', del)) :
    t'.schema = t.schema ∧ t'.rows = keptRows [] t.rows ∧
    del = (removeDupImages (dupRows [] t.rows) dir).1 := by
  unfold remove_duplicates at h
  split at h
  · split at h
    · injection h with h'
      rw [Prod.mk.injEq] at h'
      obtain ⟨h1, h2⟩ := h'
      subst h1
      subst h2
      exact ⟨rfl, rfl, rfl⟩
    · cases h
  · cases h

/-- No row kept by deduplication bears an identifier from the seen set. -/
theorem keptRows_not_mem_seen : ∀ (rows : List Row) (seen : List Value) (r : Row),
    r ∈ keptRows seen rows → r.id ∉ seen := by
  intro rows
  induction rows with
  | nil => intro seen r h; simp [keptRows] at h
  | cons a rs ih =>
    intro seen r h
    by_cases hmem : a.id ∈ seen
    · rw [keptRows, if_pos hmem] at h
      exact ih seen r h
    · rw [keptRows, if_neg hmem] at h
      rcases List.mem_cons.mp h with rfl | h2
      · exact hmem
      · intro hc
        exact ih (a.id :: seen) r h2 (List.mem_cons_of_mem _ hc)

/-- The identifiers of the rows kept by deduplication are pairwise
distinct. -/
theorem keptRows_ids_nodup : ∀ (rows : List Row) (seen : List Value),
    ((keptRows seen rows).map Row.id).Nodup := by
  intro rows
  induction rows with
  | nil => intro seen; simp [keptRows]
  | cons a rs ih =>
    intro seen
    by_cases hmem : a.id ∈ seen
    · rw [keptRows, if_pos hmem]; exact ih seen
    · rw [keptRows, if_neg hmem]
      simp only [List.map_cons, List.nodup_cons]
      refine ⟨?_, ih (a.id :: seen)⟩
      intro hc
      obtain ⟨r, hr, hid⟩ := List.mem_map.mp hc
      exact keptRows_not_mem_seen rs (a.id :: seen) r hr
        (by rw [hid]; exact List.mem_cons_self _ _)

/-- The kept rows are exactly the specification's first-occurrence
selection, relative to an already-seen identifier set. -/
theorem keptRows_eq_firstOccur : ∀ (rows : List Row) (seen : List Value),
    keptRows seen rows =
      firstOccurSpec (rows.filter (fun r => decide (r.id ∉ seen))) := by
  intro rows
  induction rows with
  | nil => intro seen; simp [keptRows, firstOccurSpec]
  | cons a rs ih =>
    intro seen
    by_cases hmem : a.id ∈ seen
    · rw [keptRows, if_pos hmem, List.filter_cons]
      have hd : (decide (a.id ∉ seen)) = false := by simp [hmem]
      rw [hd]
      simp only [Bool.false_eq_true, if_false]
      exact ih seen
    · rw [keptRows, if_neg hmem, List.filter_cons]
      have hd : (decide (a.id ∉ seen)) = true := by simp [hmem]
      rw [hd]
      simp only [if_true]
      rw [firstOccurSpec]
      congr 1
      rw [ih (a.id :: seen), List.filter_filter]
      refine congrArg firstOccurSpec (List.filter_congr ?_)
      intro x _
      simp [List.mem_cons, not_or, Bool.decide_and]

/-- Filling missing values touches neither the schema nor the
identifiers. -/
theorem handle_missing_values_facts (t : Table) :
    (handle_missing_values t).schema = t.schema ∧
    (handle_missing_values t).rows.map Row.id = t.rows.map Row.id := by
  refine ⟨rfl, ?_⟩
  unfold handle_missing_values
  simp only [List.map_map]
  congr 1

/-- Standardizing one row never changes its identifier. -/
theorem stdRow_ok_id {sch : List String} {r r' : Row}
    (h : stdRow sch r = .ok r') : r'.id = r.id := by
  unfold stdRow at h
  split at h
  · cases h
  · injection h with h'
    subst h'
    rfl

/-- Row-wise standardization preserves the identifier column. -/
theorem mapRowsStd_ok_ids {sch : List String} : ∀ {rows rows' : List Row},
    mapRowsStd sch rows = .ok rows' → rows'.map Row.id = rows.map Row.id := by
  intro rows
  induction rows with
  | nil =>
    intro rows' h
    unfold mapRowsStd at h
    injection h with h'
    subst h'
    rfl
  | cons a rs ih =>
    intro rows' h
    unfold mapRowsStd at h
    split at h
    · cases h
    next r' heq =>
      split at h
      · cases h
      next rs' heq2 =>
        injection h with h'
        subst h'
        simp only [List.map_cons, stdRow_ok_id heq, ih heq2]

/-- A successful standardization keeps the schema and the identifiers. -/
theorem standardize_formats_ok {t t' : Table}
    (h : standardize_formats t = .ok t') :
    t'.schema = t.schema ∧ t'.rows.map Row.id = t.rows.map Row.id := by
  unfold standardize_formats at h
  split at h
  · cases h
  next rows' heq =>
    injection h with h'
    subst h'
    exact ⟨rfl, mapRowsStd_ok_ids heq⟩

/-- A successful validation keeps the schema and only removes rows. -/
theorem validate_data_ok {t t' : Table} (h : validate_data t = .ok t') :
    t'.schema = t.schema ∧ t'.rows.Sublist t.rows := by
  unfold validate_data at h
  split at h
  · split at h
    · injection h with h'
      subst h'
      exact ⟨rfl,
        (List.filter_sublist _).trans ((List.filter_sublist _).trans (List.filter_sublist _))⟩
    · cases h
  · cases h

/-- The column rename never produces the name `ID`: `ID` itself is mapped
to `message_id` and no mapping target equals `ID`. -/
theorem renameName_ne_ID (n : String) : renameName n ≠ "ID" := by
  unfold renameName
  split_ifs with h1 h2 h3 h4 h5 h6 h7
  · decide
  · decide
  · decide
  · decide
  · decide
  · decide
  · decide
  · exact h4

/-- After the in-place rename of `save_cleaned_data`, no column is named
`ID` any more. -/
theorem not_ID_mem_rename (l : List String) : "ID" ∉ l.map renameName := by
  intro h
  obtain ⟨n, _, hn⟩ := List.mem_map.mp h
  exact renameName_ne_ID n hn

/-- Every file deleted by the duplicate-image cleanup existed in the
directory and is named by one of the duplicate rows. -/
theorem removeDupImages_deleted_from : ∀ (dups : List Row) (dir : List String) (f : String),
    f ∈ (removeDupImages dups dir).1 →
    f ∈ dir ∧ ∃ r, r ∈ dups ∧ f = imageName r := by
  intro dups
  induction dups with
  | nil => intro dir f h; simp [removeDupImages] at h
  | cons a rs ih =>
    intro dir f h
    simp only [removeDupImages] at h
    by_cases hmem : imageName a ∈ dir
    · rw [if_pos hmem] at h
      rcases List.mem_cons.mp h with rfl | h2
      · exact ⟨hmem, a, List.mem_cons_self _ _, rfl⟩
      · obtain ⟨hd, r, hr, hfr⟩ := ih (dir.erase (imageName a)) f h2
        exact ⟨List.mem_of_mem_erase hd, r, List.mem_cons_of_mem _ hr, hfr⟩
    · rw [if_neg hmem] at h
      obtain ⟨hd, r, hr, hfr⟩ := ih dir f h
      exact ⟨hd, r, List.mem_cons_of_mem _ hr, hfr⟩

/-- `replCsvFuel` is the identity on a list with no `.csv` occurrence
(given enough fuel). -/
theorem replCsvFuel_no_csv : ∀ (n : Nat) (cs : List Char),
    hasCsv cs = false → cs.length ≤ n → replCsvFuel n cs = cs := by
  intro n
  induction n with
  | zero => intro cs h hl; rfl
  | succ n ih =>
    intro cs h hl
    cases cs with
    | nil => rfl
    | cons c rest =>
      rw [hasCsv] at h
      obtain ⟨hd, h2⟩ := Bool.or_eq_false_iff.mp h
      have h1 : ¬ ((c :: rest).take 4 = ['.', 'c', 's', 'v']) := of_decide_eq_false hd
      simp only [replCsvFuel, if_neg h1]
      rw [ih rest h2 (by simp only [List.length_cons] at hl; omega)]

/-- Scanning `cs ++ ".csv"` where `cs` itself contains no `.csv`
replaces exactly the final occurrence. -/
theorem replCsvFuel_append_csv : ∀ (n : Nat) (cs : List Char),
    hasCsv cs = false → cs.length + 4 ≤ n →
    replCsvFuel n (cs ++ ['.', 'c', 's', 'v']) = cs ++ ("_cleaned.csv").data := by
  intro n
  induction n with
  | zero => intro cs h hl; exact absurd hl (by omega)
  | succ n ih =>
    intro cs h hl
    cases cs with
    | nil =>
      rw [List.nil_append]
      simp only [replCsvFuel, if_pos (show (('.' : Char) :: ['c', 's', 'v']).take 4 = ['.', 'c', 's', 'v'] from rfl)]
      have he : replCsvFuel n ([] : List Char) = [] := by cases n <;> rfl
      simp [he]
    | cons c rest =>
      rw [hasCsv] at h
      obtain ⟨hd, h2⟩ := Bool.or_eq_false_iff.mp h
      have h1 : ¬ ((c :: rest).take 4 = ['.', 'c', 's', 'v']) := of_decide_eq_false hd
      have hb : ¬ ((c :: (rest ++ ['.', 'c', 's', 'v'])).take 4 = ['.', 'c', 's', 'v']) := by
        cases rest with
        | nil =>
          intro hc
          rw [show (c :: (([] : List Char) ++ ['.', 'c', 's', 'v'])).take 4
              = [c, '.', 'c', 's'] from rfl] at hc
          rw [List.cons.injEq, List.cons.injEq] at hc
          exact absurd hc.2.1 (by decide)
        | cons a rest1 =>
          cases rest1 with
          | nil =>
            intro hc
            rw [show (c :: (([a] : List Char) ++ ['.', 'c', 's', 'v'])).take 4
                = [c, a, '.', 'c'] from rfl] at hc
            rw [List.cons.injEq, List.cons.injEq, List.cons.injEq] at hc
            exact absurd hc.2.2.1 (by decide)
          | cons b rest2 =>
            cases rest2 with
            | nil =>
              intro hc
              rw [show (c :: (([a, b] : List Char) ++ ['.', 'c', 's', 'v'])).take 4
                  = [c, a, b, '.'] from rfl] at hc
              rw [List.cons.injEq, List.cons.injEq, List.cons.injEq, List.cons.injEq] at hc
              exact absurd hc.2.2.2.1 (by decide)
            | cons d tl =>
              intro hc
              rw [show (c :: ((a :: b :: d :: tl) ++ ['.', 'c', 's', 'v'])).take 4
                  = [c, a, b, d] from rfl] at hc
              exact h1 (by rw [show (c :: a :: b :: d :: tl).take 4 = [c, a, b, d] from rfl]; exact hc)
      rw [List.cons_append]
      simp only [replCsvFuel, if_neg hb]
      rw [ih rest h2 (by simp only [List.length_cons] at hl; omega)]
      rfl

/-! ## Claim theorems -/

/-- C1: the claim states that `clean_message_content` returns only
characters of the allow-list (ASCII letters, digits, the punctuation set
`. , ! ? ; : ( ) [ ] @ &`, single-spaced whitespace).  The code violates
this: because the first unescaped `]` of the source pattern closes the
character class, the compiled regex only matches a disallowed character
followed by the literal text `@&` and `]`s, so on the input `"#"` nothing
is removed and the output still contains `#`, which is outside the
allow-list. -/
theorem C1_allowlist_violated_on_hash :
    clean_message_content "#" = "#" ∧
    '#' ∈ (clean_message_content "#").data ∧
    specAllowedChar '#' = false := by
  refine ⟨rfl, ?_, rfl⟩
  decide

/-- C2: the scenario claims the message `"Great news!! 🎉🎉 visit
https://x "` standardizes to `"great news!! visit https"`.  The code
instead produces `"great news!! visit https://x"`: the emoji are removed
and the whitespace collapsed, but `:`, `/`, `/`, `x` all survive because
the malformed character class never matches them. -/
theorem C2_scenario_message_mismatch :
    standardizeMessage "Great news!! 🎉🎉 visit https://x "
      = "great news!! visit https://x" ∧
    standardizeMessage "Great news!! 🎉🎉 visit https://x "
      ≠ "great news!! visit https" := by
  refine ⟨rfl, ?_⟩
  decide

/-- C3 counterexample: the second `clean_telegram_data` pass over the
first pass's written output does NOT keep the rows.  On the one-row table
`t0` the first pass writes `t1c` (nonempty, columns renamed); the second
pass over `t1c` returns a table with no rows, so its output differs from
its input's rows. -/
theorem C3_counterexample_second_pass_loses_rows :
    (clean_telegram_data (some t0) [] "data.csv").written
      = some ("data_cleaned.csv", t1c) ∧
    t1c.rows ≠ [] ∧
    (clean_telegram_data (some t1c) [] "data_cleaned.csv").result.rows ≠ t1c.rows := by
  refine ⟨rfl, ?_, ?_⟩ <;> decide

/-- C3 (amended): a second `clean_telegram_data` pass over any table the
first pass wrote always returns a table with no rows — not the same rows.
`save_cleaned_data` renamed the `ID` column (to `message_id`) in the
written file, so a nonempty second pass fails with a `KeyError` inside
deduplication and the orchestrator catches it and returns the empty
table; an empty written table short-circuits at load. -/
theorem C3_second_pass_returns_no_rows :
    ∀ (file : Option Table) (dir : List String) (path : String)
      (dir2 : List String) (path2 : String) (p : String) (t1 : Table),
      (clean_telegram_data file dir path).written = some (p, t1) →
      (clean_telegram_data (some t1) dir2 path2).result.rows = [] := by
  intro file dir path dir2 path2 p t1 h
  unfold clean_telegram_data at h
  have hsch : ∃ sch : List String, t1.schema = sch.map renameName := by
    cases hE : pipelineExc file dir path with
    | error e => rw [hE] at h; simp at h
    | ok r =>
      rw [hE] at h
      rcases pipelineExc_ok_cases hE with ⟨hrows, rfl⟩ | ⟨d1, del, d3, d4, h1, h2, h3, rfl⟩
      · simp at h
      · simp only [save_cleaned_data] at h
        rw [Option.some.injEq, Prod.mk.injEq] at h
        exact ⟨d4.schema, by rw [← h.2]⟩
  obtain ⟨sch, hsch⟩ := hsch
  have hID : "ID" ∉ t1.schema := by rw [hsch]; exact not_ID_mem_rename sch
  unfold clean_telegram_data
  cases hE2 : pipelineExc (some t1) dir2 path2 with
  | error e => rfl
  | ok r2 =>
    rcases pipelineExc_ok_cases hE2 with ⟨hrows2, rfl⟩ | ⟨e1, edel, e3, e4, g1, g2, g3, rfl⟩
    · exact hrows2
    · exfalso
      unfold remove_duplicates at g1
      rw [show load_data (some t1) = t1 from rfl, if_neg hID] at g1
      cases g1

/-- C3 amended witness: the concrete run over `t0` writes `t1c`, and the
second pass over `t1c` indeed returns no rows. -/
theorem C3_second_pass_returns_no_rows_witness :
    (clean_telegram_data (some t0) [] "data.csv").written
      = some ("data_cleaned.csv", t1c) ∧
    (clean_telegram_data (some t1c) [] "other.csv").result.rows = [] :=
  ⟨rfl, C3_second_pass_returns_no_rows (some t0) [] "data.csv" [] "other.csv"
    "data_cleaned.csv" t1c rfl⟩

/-- C4 counterexample: on the table `t4` (identifier `"5"` twice, channel
`"ChannelA"`) with the side-file `ChannelA_5.jpg` present, deduplication
retains the first row `rowD` and deletes `ChannelA_5.jpg` — but the
retained row's own (channel username, identifier) pair names exactly that
deleted file, refuting the claim that no retained row's pair names a
deleted file. -/
theorem C4_counterexample_retained_pair_names_deleted_file :
    remove_duplicates t4 ["ChannelA_5.jpg"]
      = .ok (⟨origSchema, [rowD]⟩, ["ChannelA_5.jpg"]) ∧
    imageName rowD = "ChannelA_5.jpg" :=
  ⟨rfl, rfl⟩

/-- C4 (amended): every file deleted by deduplication existed in the
directory and is named `<channel-username>_<identifier>.jpg` by some
removed (duplicate) row; but a retained row's pair may name a deleted
file, because every removed duplicate shares its identifier with the
retained first occurrence. -/
theorem C4_deleted_files_come_from_removed_rows :
    ∀ (t : Table) (dir : List String) (t' : Table) (del : List String) (f : String),
      remove_duplicates t dir = .ok (t', del) → f ∈ del →
      f ∈ dir ∧ ∃ r, r ∈ dupRows [] t.rows ∧ f = imageName r := by
  intro t dir t' del f h hf
  obtain ⟨-, -, hdel⟩ := remove_duplicates_ok h
  rw [hdel] at hf
  exact removeDupImages_deleted_from _ _ _ hf

/-- C4 amended witness: instantiated on the concrete duplicate table. -/
theorem C4_deleted_files_come_from_removed_rows_witness :
    "ChannelA_5.jpg" ∈ ["ChannelA_5.jpg"] ∧
    ∃ r, r ∈ dupRows [] t4.rows ∧ "ChannelA_5.jpg" = imageName r :=
  C4_deleted_files_come_from_removed_rows t4 ["ChannelA_5.jpg"]
    ⟨origSchema, [rowD]⟩ ["ChannelA_5.jpg"] "ChannelA_5.jpg" rfl (by decide)

/-- C5: the identifiers of the pipeline's final output are pairwise
distinct for every input, and the deduplication step keeps exactly the
first occurrence of each identifier in the original order (it equals the
specification-side `firstOccurSpec`); the later stages only rewrite
non-identifier cells or remove rows, so uniqueness survives to the
output. -/
theorem C5_output_identifiers_pairwise_distinct :
    (∀ (file : Option Table) (dir : List String) (path : String),
      ((clean_telegram_data file dir path).result.rows.map Row.id).Nodup) ∧
    (∀ rows : List Row, keptRows [] rows = firstOccurSpec rows) := by
  constructor
  · intro file dir path
    unfold clean_telegram_data
    cases hE : pipelineExc file dir path with
    | error e => simp [emptyTable]
    | ok r =>
      rcases pipelineExc_ok_cases hE with ⟨hrows, rfl⟩ | ⟨d1, del, d3, d4, h1, h2, h3, rfl⟩
      · simp [hrows]
      · obtain ⟨-, hr1, -⟩ := remove_duplicates_ok h1
        obtain ⟨-, hids3⟩ := standardize_formats_ok h2
        obtain ⟨-, hsub⟩ := validate_data_ok h3
        have base : ((handle_missing_values d1).rows.map Row.id).Nodup := by
          rw [(handle_missing_values_facts d1).2, hr1]
          exact keptRows_ids_nodup _ []
        have h3n : (d3.rows.map Row.id).Nodup := by rw [hids3]; exact base
        exact List.Nodup.sublist (List.Sublist.map _ hsub) h3n
  · intro rows
    rw [keptRows_eq_firstOccur rows []]
    rw [List.filter_eq_self.mpr (fun a _ => by simp)]

/-- C6: the validator keeps a row (whose message and channel-username
cells hold strings, as the pipeline guarantees) if and only if its date
is not the missing marker, its message is at most 1000 characters, and
its channel username is non-empty. -/
theorem C6_validator_keeps_iff :
    ∀ (t t' : Table),
      "Date" ∈ t.schema → "Message" ∈ t.schema → "Channel Username" ∈ t.schema →
      validate_data t = .ok t' →
      ∀ (r : Row) (s u : String), r.message = .vStr s → r.channel_username = .vStr u →
        (r ∈ t'.rows ↔
          r ∈ t.rows ∧ r.date ≠ .vNA ∧ s.length ≤ 1000 ∧ u ≠ "") := by
  intro t t' hD hM hU hv r s u hs hu
  unfold validate_data at hv
  rw [if_pos hD, if_pos hU] at hv
  injection hv with hv'
  subst hv'
  simp only [List.mem_filter, List.mem_filter, List.mem_filter]
  constructor
  · rintro ⟨⟨⟨hmem, hdate⟩, hmsg⟩, huser⟩
    refine ⟨hmem, of_decide_eq_true hdate, ?_, ?_⟩
    · rw [if_pos hM, hs] at hmsg
      exact of_decide_eq_true hmsg
    · rw [hu] at huser
      exact (string_ne_empty_iff_pos u).mpr (of_decide_eq_true huser)
  · rintro ⟨hmem, hdate, hmsg, huser⟩
    refine ⟨⟨⟨hmem, decide_eq_true hdate⟩, ?_⟩, ?_⟩
    · rw [if_pos hM, hs]
      exact decide_eq_true hmsg
    · rw [hu]
      exact decide_eq_true ((string_ne_empty_iff_pos u).mp huser)

/-- C6 witness: on the concrete table `t0`, validation keeps `rowA` and
the instantiated equivalence holds. -/
theorem C6_validator_keeps_iff_witness :
    rowA ∈ t0.rows ↔
      rowA ∈ t0.rows ∧ rowA.date ≠ .vNA ∧ ("hello").length ≤ 1000 ∧ ("Chan") ≠ "" :=
  C6_validator_keeps_iff t0 t0 (by decide) (by decide) (by decide) rfl
    rowA "hello" "Chan" rfl rfl

/-- C7 counterexample: for the source path `"data.txt"` (no `.csv`
suffix), `save_cleaned_data` writes at `"data.txt"` itself — the
original file is overwritten, and the output path is not the claimed
`<stem>_cleaned<ext>` form `"data_cleaned.txt"`. -/
theorem C7_counterexample_non_csv_path_overwritten :
    (save_cleaned_data emptyTable "data.txt").2.1 = "data.txt" ∧
    ("data.txt" : String) ≠ "data_cleaned.txt" := by
  refine ⟨rfl, ?_⟩
  decide

/-- C7 (amended): the persister first renames the columns to the fixed
output mapping — the content it writes is always the column-renamed
table — and writes it at the source path with every occurrence of `.csv`
replaced by `_cleaned.csv`.  When the source path is `<stem>.csv` with no
other `.csv` occurrence this path equals `<stem>_cleaned.csv` and differs
from the source path, so the original file is not overwritten; a path
containing no `.csv` at all maps to itself (and the original file is
overwritten). -/
theorem C7_cleaned_path_derivation :
    (∀ (t : Table) (p : String),
      (save_cleaned_data t p).2.1 = replaceCsv p ∧
      (save_cleaned_data t p).2.2 = ⟨t.schema.map renameName, t.rows⟩) ∧
    (∀ stem : String, hasCsv stem.data = false →
      replaceCsv (stem ++ ".csv") = stem ++ "_cleaned.csv" ∧
      replaceCsv (stem ++ ".csv") ≠ stem ++ ".csv") ∧
    (∀ p : String, hasCsv p.data = false → replaceCsv p = p) := by
  refine ⟨fun t p => ⟨rfl, rfl⟩, ?_, ?_⟩
  · intro stem hstem
    have hdata : (stem ++ (".csv" : String)).data = stem.data ++ ['.', 'c', 's', 'v'] := by
      rw [String.data_append]
    have hlen : (stem ++ (".csv" : String)).data.length = stem.data.length + 4 := by
      rw [hdata, List.length_append,
        show (['.', 'c', 's', 'v'] : List Char).length = 4 from rfl]
    have hmain : replaceCsv (stem ++ ".csv") = ⟨stem.data ++ ("_cleaned.csv").data⟩ := by
      unfold replaceCsv
      rw [hlen, hdata, replCsvFuel_append_csv _ _ hstem (Nat.le_refl _)]
    constructor
    · rw [hmain]
      cases stem with
      | mk data => rw [show (String.mk data ++ ("_cleaned.csv" : String)) = ⟨data ++ ("_cleaned.csv").data⟩ from rfl]
    · rw [hmain]
      intro hc
      have hdc := congrArg String.data hc
      have hdc2 : stem.data ++ ("_cleaned.csv").data = stem.data ++ ['.', 'c', 's', 'v'] := by
        rw [← hdata]
        exact hdc
      have hlen2 := congrArg List.length hdc2
      rw [List.length_append, List.length_append] at hlen2
      rw [show (("_cleaned.csv").data).length = 12 from rfl,
          show (['.', 'c', 's', 'v'] : List Char).length = 4 from rfl] at hlen2
      omega
  · intro p hp
    unfold replaceCsv
    rw [replCsvFuel_no_csv _ _ hp (Nat.le_refl _)]

/-- C7 amended witness: concretely, the persister writes the renamed
table at the derived path; for the stem `data` the derived path is
`data_cleaned.csv` (different from the source), and the `.csv`-free path
`data.txt` maps to itself. -/
theorem C7_cleaned_path_derivation_witness :
    ((save_cleaned_data t0 "data.csv").2.1 = replaceCsv "data.csv" ∧
     (save_cleaned_data t0 "data.csv").2.2 = ⟨t0.schema.map renameName, t0.rows⟩) ∧
    (replaceCsv ("data" ++ ".csv") = "data" ++ "_cleaned.csv" ∧
     replaceCsv ("data" ++ ".csv") ≠ "data" ++ ".csv") ∧
    replaceCsv "data.txt" = "data.txt" :=
  ⟨C7_cleaned_path_derivation.1 t0 "data.csv",
   C7_cleaned_path_derivation.2.1 "data" (by decide),
   C7_cleaned_path_derivation.2.2 "data.txt" (by decide)⟩

/-- C8: a missing or unparseable file yields the empty table from the
loader (no exception), and the orchestrator short-circuits on it: it
returns that empty table, deletes no side-file and writes no output
file. -/
theorem C8_loader_failure_short_circuits :
    load_data none = emptyTable ∧
    ∀ (dir : List String) (path : String),
      clean_telegram_data none dir path = ⟨emptyTable, [], none⟩ :=
  ⟨rfl, fun _ _ => rfl⟩

/-- C9: the orchestrator is total — for every input it either returns the
successful body's result, or the body failed with some exception and the
orchestrator caught it and returned the empty table with no recorded
effects; no exception propagates. -/
theorem C9_orchestrator_never_propagates :
    ∀ (file : Option Table) (dir : List String) (path : String),
      pipelineExc file dir path = .ok (clean_telegram_data file dir path) ∨
      ((∃ e, pipelineExc file dir path = .error e) ∧
        clean_telegram_data file dir path = ⟨emptyTable, [], none⟩) := by
  intro file dir path
  unfold clean_telegram_data
  cases hE : pipelineExc file dir path with
  | ok r => exact Or.inl rfl
  | error e => exact Or.inr ⟨⟨e, rfl⟩, rfl⟩

/-- C10: on a successful run over a table with the conventional input
columns, the table `clean_telegram_data` returns is exactly the written
(renamed) table, whose columns already bear the output names — with the
message column still named `Message`. -/
theorem C10_returned_table_has_renamed_columns :
    ∀ (t : Table) (dir : List String) (path : String) (p : String) (t1 : Table),
      t.schema = origSchema →
      (clean_telegram_data (some t) dir path).written = some (p, t1) →
      (clean_telegram_data (some t) dir path).result = t1 ∧
      t1.schema = ["message_id", "channel_id", "channel_title", "channel_username",
                   "Message", "date", "media_path"] := by
  intro t dir path p t1 hsch h
  unfold clean_telegram_data at h ⊢
  cases hE : pipelineExc (some t) dir path with
  | error e => rw [hE] at h; simp at h
  | ok r =>
    rw [hE] at h
    rcases pipelineExc_ok_cases hE with ⟨hrows, rfl⟩ | ⟨d1, del, d3, d4, h1, h2, h3, rfl⟩
    · simp at h
    · simp only [save_cleaned_data] at h ⊢
      rw [Option.some.injEq, Prod.mk.injEq] at h
      obtain ⟨-, ht1⟩ := h
      refine ⟨by rw [← ht1], ?_⟩
      rw [← ht1]
      have e1 := (remove_duplicates_ok h1).1
      have e3 := (standardize_formats_ok h2).1
      have e4 := (validate_data_ok h3).1
      show (d4.schema.map renameName) = _
      rw [e4, e3, (handle_missing_values_facts d1).1, e1]
      show ((load_data (some t)).schema.map renameName) = _
      rw [show (load_data (some t)).schema = t.schema from rfl, hsch]
      rfl

/-- C10 witness: the concrete run over `t0` returns the written table
`t1c`, whose schema is the renamed column list. -/
theorem C10_returned_table_has_renamed_columns_witness :
    (clean_telegram_data (some t0) [] "data.csv").result = t1c ∧
    t1c.schema = ["message_id", "channel_id", "channel_title", "channel_username",
                  "Message", "date", "media_path"] :=
  C10_returned_table_has_renamed_columns t0 [] "data.csv" "data_cleaned.csv" t1c rfl rfl

end DataCleaner
